import Mathlib

/-!
Shallow embedding of `src/resnap/core/train_potential.py` (class
`PotentialTrainer`).  Matrices are lists of rows over `ℚ`; the external
collaborators (the sklearn solver's coefficient computation, the numpy
global PRNG and the column-norm formulas of `sklearn.preprocessing.normalize`)
are abstract function parameters, while every piece of logic written in the
repository itself (fold index construction, error aggregation, the alpha
sweep, normalization bookkeeping, coefficient un-scaling and the potential
file layout) is translated concretely.
-/

namespace ReSnap

/-- The keys of the module-level `MODELS` dict: the two resolvable model
constructors, `sklearn.linear_model.Lasso` and `Ridge`. -/
inductive ModelKind
| lasso
| ridge
deriving DecidableEq

/-- `MODELS.get(f)` in `PotentialTrainer.__init__` (line 44): dictionary
lookup that yields `None` (here `none`) for any key outside
`{"LASSO", "RIDGE"}` without raising. -/
def MODELS_get (s : String) : Option ModelKind :=
  if s = "LASSO" then some ModelKind.lasso
  else if s = "RIDGE" then some ModelKind.ridge
  else none

/-- State of numpy's global pseudo-random generator, abstracted. -/
abbrev RngState := ℕ

/-- A file system: path to file contents; a potential file's contents are
its lines, one rational coefficient per line (`str()` formatting of each
float is not modelled, a line is identified with its numeric value). -/
abbrev FS := String → Option (List ℚ)

/-- `np.absolute` on a scalar. -/
def absQ (q : ℚ) : ℚ := if q < 0 then -q else q

/-- `np.average` / `np.mean` of a 1-D array (no weights).  On an empty
array numpy yields NaN; here the empty mean is 0, and every theorem that
relies on a mean keeps its splits non-empty (dataset invariant N ≥ 5). -/
def meanQ (l : List ℚ) : ℚ := l.sum / (l.length : ℚ)

/-- Binary maximum used by Python's `max` on numbers. -/
def max2Q (a b : ℚ) : ℚ := if a ≤ b then b else a

/-- Binary minimum used by Python's `min` on numbers. -/
def min2Q (a b : ℚ) : ℚ := if a ≤ b then a else b

/-- `max(xs)`: fails (raises) on an empty sequence, as numpy/python do. -/
def pyMax : List ℚ → Option ℚ
| [] => none
| a :: as => some (as.foldl max2Q a)

/-- `min(xs)`: fails (raises) on an empty sequence. -/
def pyMin : List ℚ → Option ℚ
| [] => none
| a :: as => some (as.foldl min2Q a)

/-- Number of columns of a rectangular row-major matrix. -/
def numCols (m : List (List ℚ)) : ℕ := (m.headD []).length

/-- Column `j` of a row-major matrix (`m[:, j]`). -/
def colQ (j : ℕ) (m : List (List ℚ)) : List ℚ := m.map (fun r => r.getD j 0)

/-- Python truthiness of the `norm` attribute: `if self.norm:` is `False`
for `None` and for the empty string. -/
def truthyStr : Option String → Bool
| none => false
| some s => s ≠ ""

/-- `sklearn.preprocessing._handle_zeros_in_scale`: a zero column norm is
replaced by 1 before dividing (and the handled value is what
`return_norm=True` hands back). -/
def handleZero (q : ℚ) : ℚ := if q = 0 then 1 else q

/-- Column scale vector of `sklearn.preprocessing.normalize(features,
norm=..., axis=0, return_norm=True)`: one handled norm per column of the
feature block.  `normFn` is the chosen norm's column formula (l1, l2 or
max), kept abstract as library internals. -/
def normScales (normFn : List ℚ → ℚ) (features : List (List ℚ)) : List ℚ :=
  (List.range (numCols features)).map (fun j => handleZero (normFn (colQ j features)))

/-- The normalized feature block: each column divided by its handled norm,
i.e. each row divided elementwise by the scale vector. -/
def normalizedRows (normFn : List ℚ → ℚ) (features : List (List ℚ)) : List (List ℚ) :=
  features.map (fun r => List.zipWith (fun x s => x / s) r (normScales normFn features))

/-- The l1 column norm `np.abs(col).sum()` (used to instantiate `normFn`
in witnesses; the l2 norm needs a square root and stays abstract). -/
def l1ColNorm (c : List ℚ) : ℚ := (c.map absQ).sum

/-- `np.concatenate((y, X), axis=1)` with `y` an N×1 column: each row of
the working table is the energy followed by the feature row. -/
def concatYX (y : List ℚ) (x : List (List ℚ)) : List (List ℚ) :=
  (y.zip x).map (fun p => p.1 :: p.2)

/-- The state a `PotentialTrainer` instance holds after `__init__`
(lines 43-59): resolved model constructor, norm kind string, the scale
vector (`self.norms` exists only when normalization ran), the feature
matrix `X` (normalized in place when requested), the energies `y` and the
concatenated working table. -/
structure Trainer where
  f : Option ModelKind
  norm : Option String
  norms : Option (List ℚ)
  training_x : List (List ℚ)
  training_y : List ℚ
  training_data : List (List ℚ)

/-- `PotentialTrainer.__init__` (lines 43-59), after the external
`scipy.io.loadmat` call has produced `X` and `y`: resolve the model kind,
optionally normalize columns 1.. of `X` (column 0, the atom count, is
excluded from the feature block that is rescaled), and build
`training_data = concatenate((y, X), axis=1)`. -/
def mkTrainer (normFn : List ℚ → ℚ) (modelName : String) (norm : Option String)
    (X : List (List ℚ)) (y : List ℚ) : Trainer :=
  let f := MODELS_get modelName
  if truthyStr norm then
    let features := X.map (List.drop 1)
    let norms := normScales normFn features
    let features' := normalizedRows normFn features
    let tx := (X.zip features').map (fun p => p.1.take 1 ++ p.2)
    { f := f, norm := norm, norms := some norms, training_x := tx,
      training_y := y, training_data := concatYX y tx }
  else
    { f := f, norm := norm, norms := none, training_x := X,
      training_y := y, training_data := concatYX y X }

/-- Count of `range(start, stop, step)` for a positive step, as in Python. -/
def pyRangeLen (start stop step : ℕ) : ℕ := (stop - start + step - 1) / step

/-- Python list slice `l[start::step]` for a positive step. -/
def pySlice {α : Type} (l : List α) (start step : ℕ) : List α :=
  ((List.range (pyRangeLen start l.length step)).map (fun t => start + step * t)).filterMap
    (fun j => l[j]?)

/-- `all_id = list(range(len(data)))` (line 156). -/
def all_id (n : ℕ) : List ℕ := List.range n

/-- `validation_id = all_id[i::5]` (line 157): fold `i`'s validation row
indices in the shuffled order. -/
def validation_id (n i : ℕ) : List ℕ := pySlice (all_id n) i 5

/-- `train_id = [j for j in all_id if j not in validation_id]` (line 158). -/
def train_id (n i : ℕ) : List ℕ :=
  (all_id n).filter (fun j => decide (j ∉ validation_id n i))

/-- Integer-array indexing `arr[ids]` of numpy (rows selected in order). -/
def selRows {α : Type} (l : List α) (ids : List ℕ) : List α :=
  ids.filterMap (fun j => l[j]?)

/-- Dot product of two equal-length vectors. -/
def dotQ (u v : List ℚ) : ℚ := (List.zipWith (fun a b => a * b) u v).sum

/-- `model.predict(X)` for a linear model fitted with
`fit_intercept=False`: exactly `X @ coef_`. -/
def predictLin (coef : List ℚ) (X : List (List ℚ)) : List ℚ :=
  X.map (fun r => dotQ r coef)

/-- Abstract sklearn solver: given model kind, `alpha`, `max_iter`, `tol`
and a training set, `fit` produces the coefficient vector `coef_` (one
entry per column of the design matrix; optimization internals are
external). -/
abbrev FitFn := ModelKind → ℚ → ℚ → ℚ → List (List ℚ) → List ℚ → List ℚ

/-- The columns `data[:, 1:]` of the shuffled working table (line 147). -/
def tableX (data : List (List ℚ)) : List (List ℚ) := data.map (List.drop 1)

/-- The column `data[:, 0]` of the shuffled working table (line 148). -/
def tableY (data : List (List ℚ)) : List ℚ := data.map (fun r => r.getD 0 0)

/-- The column `data[:, 1]` of the shuffled working table (line 149): the
atom counts, read out of the first feature column. -/
def tableNum (data : List (List ℚ)) : List ℚ := data.map (fun r => r.getD 1 0)

/-- The coefficient vector fitted for fold `i` at a given alpha
(lines 164-166): fit on the training rows' feature columns against the
training rows' energies. -/
def fold_coef (fitCoef : FitFn) (k : ModelKind) (a mi tol : ℚ)
    (data : List (List ℚ)) (i : ℕ) : List ℚ :=
  fitCoef k a mi tol (selRows (tableX data) (train_id data.length i))
    (selRows (tableY data) (train_id data.length i))

/-- One fold of the inner loop of `cross_validation` (lines 155-186,
side-effect-free part): returns `(error_train, error_val)`, each the mean
of the rowwise `|true - predicted| / atom_count`. -/
def fold_errors (fitCoef : FitFn) (k : ModelKind) (a mi tol : ℚ)
    (data : List (List ℚ)) (i : ℕ) : ℚ × ℚ :=
  let n := data.length
  let vid := validation_id n i
  let tid := train_id n i
  let train_x := selRows (tableX data) tid
  let train_y := selRows (tableY data) tid
  let validation_x := selRows (tableX data) vid
  let validation_y := selRows (tableY data) vid
  let num_array_train := selRows (tableNum data) tid
  let num_array_val := selRows (tableNum data) vid
  let coef := fitCoef k a mi tol train_x train_y
  let predicted_validation := predictLin coef validation_x
  let predicted_train := predictLin coef train_x
  let diff_val := List.zipWith (fun y p => absQ (y - p)) validation_y predicted_validation
  let error_val := meanQ (List.zipWith (fun d m => d / m) diff_val num_array_val)
  let diff_train := List.zipWith (fun y p => absQ (y - p)) train_y predicted_train
  let error_train := meanQ (List.zipWith (fun d m => d / m) diff_train num_array_train)
  (error_train, error_val)

/-- `np.mean(errors_validation)` over the five folds at one alpha
(lines 155-188): the per-alpha mean validation error appended to
`alpha_errors`. -/
def alpha_error (fitCoef : FitFn) (k : ModelKind) (a mi tol : ℚ)
    (data : List (List ℚ)) : ℚ :=
  meanQ ((List.range 5).map (fun i => (fold_errors fitCoef k a mi tol data i).2))

/-- Message of the `TypeError` raised when `self.f` is `None` (the
`MODELS` lookup failed) and the code calls `self.f(...)`. -/
def typeErrorMsg : String := "TypeError: NoneType object is not callable"

/-- Message of the `ValueError` raised by `max` / `min` on the empty
per-alpha error array (line 193 with an empty alpha sweep). -/
def emptyMaxMsg : String := "ValueError: max of an empty sequence"

/-- Sequential effectful map over `Except`, mirroring a Python `for` loop
that stops at the first raised exception. -/
def mapExcept {α β : Type} (g : α → Except String β) : List α → Except String (List β)
| [] => Except.ok []
| a :: as => do
  let b ← g a
  let bs ← mapExcept g as
  Except.ok (b :: bs)

/-- The working table after `data = self.training_data.copy();
np.random.seed(seed); np.random.shuffle(data)` (lines 144-146).  `npSeed`
models `np.random.seed`: it REPLACES the global generator state, so the
ambient state `rng0` is discarded; `npShuffle` models the in-place
Fisher-Yates shuffle as a pure function of the seeded state and the rows
(it acts on the copy, never on `self.training_data`). -/
def shuffled_table (npSeed : ℕ → RngState)
    (npShuffle : RngState → List (List ℚ) → List (List ℚ) × RngState)
    (st : Trainer) (seed : ℕ) (rng0 : RngState) : List (List ℚ) :=
  let _ := rng0
  (npShuffle (npSeed seed) st.training_data).1

/-- `PotentialTrainer.cross_validation` (lines 131-198) as a state-passing
function: consumes the trainer state and the ambient global RNG state,
returns the (unchanged) trainer state, the RNG state after the shuffle,
and either the per-alpha mean validation error array or the first raised
exception.  Plot calls (`plot_y_yhat*`, `plot_cross`) are external sinks
with no effect on trainer state or the return value and are omitted; the
`max`/`min` plot-bound computation is kept because it raises on an empty
sweep. -/
def cross_validation_run (npSeed : ℕ → RngState)
    (npShuffle : RngState → List (List ℚ) → List (List ℚ) × RngState)
    (fitCoef : FitFn) (st : Trainer) (alpha_range : List ℚ)
    (max_iter tol : ℚ) (seed : ℕ) (rng0 : RngState) :
    Trainer × RngState × Except String (List ℚ) :=
  let _ := rng0
  let shuffled := npShuffle (npSeed seed) st.training_data
  let data := shuffled.1
  let alphaErrorsE := mapExcept (fun a =>
    match st.f with
    | none => Except.error typeErrorMsg
    | some k => Except.ok (alpha_error fitCoef k a max_iter tol data)) alpha_range
  let result := match alphaErrorsE with
  | Except.error e => Except.error e
  | Except.ok alpha_errors =>
    match pyMax alpha_errors, pyMin alpha_errors with
    | some max_e, some min_e =>
      let _diff := max_e - min_e
      Except.ok alpha_errors
    | _, _ => Except.error emptyMaxMsg
  (st, shuffled.2, result)

/-- Opening `os.path.join(output_dir, "re_potential")` in mode `'w'` and
writing one line per coefficient: the path is freshly mapped to the new
lines, whatever it held before. -/
def writeLines (fs : FS) (path : String) (lines : List ℚ) : FS :=
  fun q => if q = path then some lines else fs q

/-- Numpy elementwise division `u / v` of two 1-D arrays with broadcast
semantics: equal lengths divide elementwise, a length-1 operand is
broadcast, anything else raises a `ValueError`. -/
def np_true_divide (u v : List ℚ) : Except String (List ℚ) :=
  if u.length = v.length then Except.ok (List.zipWith (fun a b => a / b) u v)
  else if v.length = 1 then Except.ok (u.map (fun a => a / v.getD 0 1))
  else if u.length = 1 then Except.ok (v.map (fun b => u.getD 0 1 / b))
  else Except.error "ValueError: operands could not be broadcast together"

/-- `PotentialTrainer.make_potential` (lines 220-242): fit one model on
`self.training_x` (the FULL feature matrix, atom-count column included)
against `self.training_y`, take `model.coef_[0]` (the coefficient vector,
one entry per column of `training_x`; `hlen` hypotheses in the theorems
record that sklearn contract), divide by `self.norms` when normalization
is configured, and write one line per coefficient to
`<output_dir>/re_potential`. -/
def make_potential (fitCoef : FitFn) (st : Trainer) (output_dir : String)
    (alpha mi tol : ℚ) (fs : FS) : Except String FS :=
  match st.f with
  | none => Except.error typeErrorMsg
  | some k =>
    let potential := fitCoef k alpha mi tol st.training_x st.training_y
    let potE := if truthyStr st.norm
      then np_true_divide potential (st.norms.getD [])
      else Except.ok potential
    match potE with
    | Except.error e => Except.error e
    | Except.ok pot => Except.ok (writeLines fs (output_dir ++ "/re_potential") pot)

/-- Rowwise per-atom absolute error of the shuffled working table at row
`j` under a coefficient vector: `|data[j][0] - data[j][1:] . coef| /
data[j][1]` (energy in column 0, atom count in column 1). -/
def per_atom_err (data : List (List ℚ)) (coef : List ℚ) (j : ℕ) : ℚ :=
  absQ ((data.getD j []).getD 0 0 - dotQ ((data.getD j []).drop 1) coef) /
    (data.getD j []).getD 1 0

end ReSnap

namespace ReSnap

/-- Fold `i`'s validation ids are the arithmetic progression
`i, i + 5, i + 10, ...` below `n`. -/
lemma validation_id_eq_map (n i : ℕ) :
    validation_id n i = (List.range (pyRangeLen i n 5)).map (fun t => i + 5 * t) := by
  unfold validation_id pySlice all_id
  rw [List.length_range, List.filterMap_map]
  have h : ∀ t ∈ List.range (pyRangeLen i n 5),
      ((fun j => (List.range n)[j]?) ∘ (fun t => i + 5 * t)) t = some (i + 5 * t) := by
    intro t ht
    rw [List.mem_range] at ht
    have hlt : i + 5 * t < n := by
      unfold pyRangeLen at ht
      omega
    simp [List.getElem?_range, hlt]
  rw [List.filterMap_congr h]
  exact List.filterMap_eq_map _ ▸ rfl

/-- Membership in fold `i`'s validation ids is congruence to `i` mod 5. -/
lemma mem_validation_id (n i j : ℕ) (hi : i < 5) :
    j ∈ validation_id n i ↔ j < n ∧ j % 5 = i := by
  rw [validation_id_eq_map, List.mem_map]
  constructor
  · rintro ⟨t, ht, rfl⟩
    rw [List.mem_range] at ht
    unfold pyRangeLen at ht
    omega
  · rintro ⟨hj, hm⟩
    refine ⟨j / 5, ?_, by omega⟩
    rw [List.mem_range]
    unfold pyRangeLen
    omega

/-- C2: for a dataset with `n ≥ 5` rows, the five validation index sets
computed by `cross_validation` (indices congruent to the fold number mod 5
in the shuffled order) are pairwise disjoint, they jointly cover every row
index below `n` (and contain nothing else), and each fold's training index
set is exactly the complement of its validation index set. -/
theorem cross_validation_fold_partition (n i j x : ℕ) (hn : 5 ≤ n) (hi : i < 5)
    (hj : j < 5) (hij : i ≠ j) :
    (x ∈ validation_id n i ↔ x < n ∧ x % 5 = i) ∧
    List.Disjoint (validation_id n i) (validation_id n j) ∧
    (x < n → x ∈ validation_id n (x % 5)) ∧
    (x ∈ train_id n i ↔ x < n ∧ x ∉ validation_id n i) := by
  refine ⟨mem_validation_id n i x hi, ?_, ?_, ?_⟩
  · intro a ha hb
    rw [mem_validation_id n i a hi] at ha
    rw [mem_validation_id n j a hj] at hb
    exact hij (ha.2 ▸ hb.2 ▸ rfl)
  · intro hx
    exact (mem_validation_id n (x % 5) x (Nat.mod_lt x (by omega))).2 ⟨hx, rfl⟩
  · unfold train_id all_id
    simp [List.mem_filter, List.mem_range]

/-- Witness for C2 at `n = 7`, folds 1 and 3, row index 6. -/
theorem cross_validation_fold_partition_witness :
    5 ≤ 7 ∧ ((6 ∈ validation_id 7 1 ↔ 6 < 7 ∧ 6 % 5 = 1) ∧
      List.Disjoint (validation_id 7 1) (validation_id 7 3) ∧
      (6 < 7 → 6 ∈ validation_id 7 (6 % 5)) ∧
      (6 ∈ train_id 7 1 ↔ 6 < 7 ∧ 6 ∉ validation_id 7 1)) :=
  ⟨by decide, cross_validation_fold_partition 7 1 3 6 (by decide) (by decide)
    (by decide) (by decide)⟩

/-- C6: the shuffled row order, the fold index sets derived from it, and
the whole result of `cross_validation` are independent of the ambient
global PRNG state `rng0`, because `np.random.seed(seed)` replaces that
state before the single shuffle: with a fixed seed and dataset, two runs
produce identical shuffles and fold assignments. -/
theorem cross_validation_seed_determinism
    (npSeed : ℕ → RngState)
    (npShuffle : RngState → List (List ℚ) → List (List ℚ) × RngState)
    (fitCoef : FitFn) (st : Trainer) (alphas : List ℚ) (mi tol : ℚ)
    (seed : ℕ) (rng0 rng0' : RngState) (i : ℕ) :
    shuffled_table npSeed npShuffle st seed rng0 =
      shuffled_table npSeed npShuffle st seed rng0' ∧
    validation_id (shuffled_table npSeed npShuffle st seed rng0).length i =
      validation_id (shuffled_table npSeed npShuffle st seed rng0').length i ∧
    cross_validation_run npSeed npShuffle fitCoef st alphas mi tol seed rng0 =
      cross_validation_run npSeed npShuffle fitCoef st alphas mi tol seed rng0' :=
  ⟨rfl, rfl, rfl⟩

/-- C7: with an empty alpha sequence the sweep loop runs zero times, so
`max(alpha_errors)` on the empty error array raises; the failure is
propagated to the caller and no alpha-sweep result is returned. -/
theorem cross_validation_empty_alpha_fails
    (npSeed : ℕ → RngState)
    (npShuffle : RngState → List (List ℚ) → List (List ℚ) × RngState)
    (fitCoef : FitFn) (st : Trainer) (mi tol : ℚ) (seed : ℕ) (rng0 : RngState) :
    (cross_validation_run npSeed npShuffle fitCoef st [] mi tol seed rng0).2.2 =
      Except.error emptyMaxMsg :=
  rfl

/-- C10: `cross_validation` shuffles only a copy of the working table, so
the trainer state it returns is the one it was given — in particular
`training_x`, `training_y` and `training_data` are untouched — and a
subsequent `make_potential` call behaves exactly as it would have before
the cross-validation run. -/
theorem cross_validation_preserves_trainer_state
    (npSeed : ℕ → RngState)
    (npShuffle : RngState → List (List ℚ) → List (List ℚ) × RngState)
    (fitCoef : FitFn) (st : Trainer) (alphas : List ℚ) (mi tol : ℚ)
    (seed : ℕ) (rng0 : RngState) (output_dir : String) (alpha mi2 tol2 : ℚ)
    (fs : FS) :
    (cross_validation_run npSeed npShuffle fitCoef st alphas mi tol seed rng0).1 = st ∧
    (cross_validation_run npSeed npShuffle fitCoef st alphas mi tol seed rng0).1.training_x =
      st.training_x ∧
    (cross_validation_run npSeed npShuffle fitCoef st alphas mi tol seed rng0).1.training_y =
      st.training_y ∧
    (cross_validation_run npSeed npShuffle fitCoef st alphas mi tol seed rng0).1.training_data =
      st.training_data ∧
    make_potential fitCoef
      (cross_validation_run npSeed npShuffle fitCoef st alphas mi tol seed rng0).1
      output_dir alpha mi2 tol2 fs =
      make_potential fitCoef st output_dir alpha mi2 tol2 fs :=
  ⟨rfl, rfl, rfl, rfl, rfl⟩

end ReSnap

namespace ReSnap

/-- A Python loop whose body never raises collects exactly the mapped
results. -/
lemma mapExcept_ok {α β : Type} (f : α → β) (l : List α) :
    mapExcept (fun a => Except.ok (f a)) l = Except.ok (l.map f) := by
  induction l with
  | nil => rfl
  | cons a as ih =>
    simp only [mapExcept, ih]
    rfl

/-- Reading a mapped list at an in-bounds position. -/
lemma getD_map_lt {α β : Type} (f : α → β) (l : List α) (n : ℕ) (d : α) (d' : β)
    (h : n < l.length) : (l.map f).getD n d' = f (l.getD n d) := by
  rw [List.getD_eq_getElem?_getD, List.getD_eq_getElem?_getD, List.getElem?_map,
    List.getElem?_eq_getElem h]
  rfl

/-- C5: for a non-empty alpha sequence (and a resolvable model kind),
`cross_validation` returns one value per alpha in input order: the result
is the input-order map of the per-alpha error, it has the input's length,
and its `kth` entry is the arithmetic mean over the 5 folds of the
per-fold mean per-atom validation error at the `kth` input alpha. -/
theorem cross_validation_alpha_sweep_order
    (npSeed : ℕ → RngState)
    (npShuffle : RngState → List (List ℚ) → List (List ℚ) × RngState)
    (fitCoef : FitFn) (st : Trainer) (k : ModelKind) (alphas : List ℚ)
    (mi tol : ℚ) (seed : ℕ) (rng0 : RngState) (kth : ℕ)
    (hf : st.f = some k) (halphas : alphas ≠ []) (hk : kth < alphas.length) :
    (cross_validation_run npSeed npShuffle fitCoef st alphas mi tol seed rng0).2.2 =
      Except.ok (alphas.map (fun a =>
        alpha_error fitCoef k a mi tol (shuffled_table npSeed npShuffle st seed rng0))) ∧
    (alphas.map (fun a =>
        alpha_error fitCoef k a mi tol (shuffled_table npSeed npShuffle st seed rng0))).length =
      alphas.length ∧
    (alphas.map (fun a =>
        alpha_error fitCoef k a mi tol (shuffled_table npSeed npShuffle st seed rng0))).getD kth 0 =
      meanQ ((List.range 5).map (fun i =>
        (fold_errors fitCoef k (alphas.getD kth 0) mi tol
          (shuffled_table npSeed npShuffle st seed rng0) i).2)) := by
  refine ⟨?_, List.length_map _ _, ?_⟩
  · obtain ⟨a, as, rfl⟩ := List.exists_cons_of_ne_nil halphas
    unfold cross_validation_run shuffled_table
    simp only [hf, mapExcept_ok, List.map_cons, pyMax, pyMin]
  · rw [getD_map_lt _ _ _ 0 _ hk]
    rfl

/-- Trivial abstract-solver instantiation for witnesses. -/
def witFit : FitFn := fun _ _ _ _ _ _ => []

def c5_st : Trainer := ⟨some ModelKind.ridge, none, none, [], [], []⟩

/-- Identity instantiations of the abstract PRNG collaborators, used by
the concrete witnesses (any fixed functions would do). -/
def witSeed : ℕ → RngState := fun s => s

/-- Identity shuffle instantiation for witnesses. -/
def witShuffle : RngState → List (List ℚ) → List (List ℚ) × RngState :=
  fun s l => (l, s)

/-- Witness for C5 on the alpha sweep `[0, 1]` at position 1. -/
theorem cross_validation_alpha_sweep_order_witness :
    c5_st.f = some ModelKind.ridge ∧ ([0, 1] : List ℚ) ≠ [] ∧
      1 < ([0, 1] : List ℚ).length ∧
    ((cross_validation_run witSeed witShuffle witFit c5_st [0, 1] 6 (1/10) 2020 0).2.2 =
      Except.ok (([0, 1] : List ℚ).map (fun a =>
        alpha_error witFit ModelKind.ridge a 6 (1/10)
          (shuffled_table witSeed witShuffle c5_st 2020 0))) ∧
    (([0, 1] : List ℚ).map (fun a =>
        alpha_error witFit ModelKind.ridge a 6 (1/10)
          (shuffled_table witSeed witShuffle c5_st 2020 0))).length =
      ([0, 1] : List ℚ).length ∧
    (([0, 1] : List ℚ).map (fun a =>
        alpha_error witFit ModelKind.ridge a 6 (1/10)
          (shuffled_table witSeed witShuffle c5_st 2020 0))).getD 1 0 =
      meanQ ((List.range 5).map (fun i =>
        (fold_errors witFit ModelKind.ridge (([0, 1] : List ℚ).getD 1 0) 6 (1/10)
          (shuffled_table witSeed witShuffle c5_st 2020 0) i).2))) :=
  ⟨rfl, by simp, by simp,
    cross_validation_alpha_sweep_order witSeed witShuffle witFit c5_st
      ModelKind.ridge [0, 1] 6 (1/10) 2020 0 1 rfl (by simp) (by simp)⟩

end ReSnap

namespace ReSnap

/-- Numpy row selection of a mapped table, at in-bounds indices. -/
lemma selRows_map_of_lt {α β : Type} (g : α → β) (l : List α) (ids : List ℕ) (d : α)
    (h : ∀ j ∈ ids, j < l.length) :
    selRows (l.map g) ids = ids.map (fun j => g (l.getD j d)) := by
  induction ids with
  | nil => rfl
  | cons j js ih =>
    have hj : j < l.length := h j (List.mem_cons_self j js)
    have hd : l.getD j d = l[j] := by
      rw [List.getD_eq_getElem?_getD, List.getElem?_eq_getElem hj]
      rfl
    have ih' := ih (fun x hx => h x (List.mem_cons_of_mem j hx))
    simp only [selRows, List.filterMap_cons, List.getElem?_map,
      List.getElem?_eq_getElem hj, Option.map_some'] at ih' ⊢
    rw [List.map_cons, ih', hd]

/-- Every fold validation index is a row index of the table. -/
lemma validation_id_lt (n i j : ℕ) (h : j ∈ validation_id n i) : j < n := by
  rw [validation_id_eq_map] at h
  obtain ⟨t, ht, rfl⟩ := List.mem_map.1 h
  rw [List.mem_range] at ht
  unfold pyRangeLen at ht
  omega

/-- Every fold training index is a row index of the table. -/
lemma train_id_lt (n i j : ℕ) (h : j ∈ train_id n i) : j < n := by
  unfold train_id all_id at h
  rw [List.mem_filter] at h
  exact List.mem_range.1 h.1

/-- Both components of `fold_errors` are means, over the fold's index
lists, of the rowwise per-atom absolute error of the shuffled table. -/
lemma fold_errors_eq (fitCoef : FitFn) (k : ModelKind) (a mi tol : ℚ)
    (data : List (List ℚ)) (i : ℕ) :
    fold_errors fitCoef k a mi tol data i =
      (meanQ ((train_id data.length i).map
          (per_atom_err data (fold_coef fitCoef k a mi tol data i))),
        meanQ ((validation_id data.length i).map
          (per_atom_err data (fold_coef fitCoef k a mi tol data i)))) := by
  simp only [fold_errors, fold_coef, per_atom_err, predictLin, tableX, tableY, tableNum]
  rw [selRows_map_of_lt (List.drop 1) data (train_id data.length i) []
      (fun j hj => train_id_lt data.length i j hj),
    selRows_map_of_lt (fun r => r.getD 0 0) data (train_id data.length i) []
      (fun j hj => train_id_lt data.length i j hj),
    selRows_map_of_lt (fun r => r.getD 1 0) data (train_id data.length i) []
      (fun j hj => train_id_lt data.length i j hj),
    selRows_map_of_lt (List.drop 1) data (validation_id data.length i) []
      (fun j hj => validation_id_lt data.length i j hj),
    selRows_map_of_lt (fun r => r.getD 0 0) data (validation_id data.length i) []
      (fun j hj => validation_id_lt data.length i j hj),
    selRows_map_of_lt (fun r => r.getD 1 0) data (validation_id data.length i) []
      (fun j hj => validation_id_lt data.length i j hj)]
  simp only [List.map_map, List.zipWith_map, List.zipWith_same]
  rfl

/-- A sum of elementwise quotients with an all-zero numerator list. -/
lemma sum_zipWith_zero_div (xs ys : List ℚ) :
    (List.zipWith (fun d m => d / m) (xs.map (fun _ => (0 : ℚ))) ys).sum = 0 := by
  induction xs generalizing ys with
  | nil => simp
  | cons x xs ih =>
    cases ys with
    | nil => simp
    | cons y ys =>
      simp only [List.map_cons, List.zipWith_cons_cons, List.sum_cons, zero_div,
        zero_add, ih]

/-- When the fold's predictions agree with the fold's true energies, the
fold's mean per-atom validation error vanishes. -/
lemma fold_val_err_zero (fitCoef : FitFn) (k : ModelKind) (a mi tol : ℚ)
    (data : List (List ℚ)) (i : ℕ)
    (hpred : predictLin (fold_coef fitCoef k a mi tol data i)
        (selRows (tableX data) (validation_id data.length i)) =
      selRows (tableY data) (validation_id data.length i)) :
    (fold_errors fitCoef k a mi tol data i).2 = 0 := by
  simp only [predictLin, fold_coef, tableX, tableY] at hpred
  simp only [fold_errors, predictLin, tableX, tableY, tableNum]
  rw [hpred, List.zipWith_same]
  have hz : (selRows (data.map (fun r => r.getD 0 0)) (validation_id data.length i)).map
      (fun y => absQ (y - y)) =
      (selRows (data.map (fun r => r.getD 0 0)) (validation_id data.length i)).map
      (fun _ => (0 : ℚ)) := by
    simp [absQ]
  rw [hz, meanQ, sum_zipWith_zero_div]
  simp

/-- C4: inside `cross_validation`, the per-atom error of each train and
validation split is the mean over the split's row indices of
`|true_energy - predicted_energy| / atom_count`, where the atom count is
column 1 of the shuffled working table; and whenever the model's
predictions exactly equal the true energies on every validation row, the
reported mean validation error is exactly 0 for every alpha. -/
theorem cross_validation_per_atom_error
    (npSeed : ℕ → RngState)
    (npShuffle : RngState → List (List ℚ) → List (List ℚ) × RngState)
    (fitCoef : FitFn) (st : Trainer) (k : ModelKind) (alphas : List ℚ)
    (a mi tol : ℚ) (seed : ℕ) (rng0 : RngState) (i : ℕ) (data : List (List ℚ))
    (hdata : data = shuffled_table npSeed npShuffle st seed rng0)
    (hf : st.f = some k) (hn : 5 ≤ data.length) (halphas : alphas ≠ [])
    (hexact : ∀ b ∈ alphas, ∀ i' < 5,
      predictLin (fold_coef fitCoef k b mi tol data i')
          (selRows (tableX data) (validation_id data.length i')) =
        selRows (tableY data) (validation_id data.length i')) :
    ((fold_errors fitCoef k a mi tol data i).2 =
      meanQ ((validation_id data.length i).map
        (per_atom_err data (fold_coef fitCoef k a mi tol data i)))) ∧
    ((fold_errors fitCoef k a mi tol data i).1 =
      meanQ ((train_id data.length i).map
        (per_atom_err data (fold_coef fitCoef k a mi tol data i)))) ∧
    (cross_validation_run npSeed npShuffle fitCoef st alphas mi tol seed rng0).2.2 =
      Except.ok (alphas.map (fun _ => (0 : ℚ))) := by
  refine ⟨by rw [fold_errors_eq], by rw [fold_errors_eq], ?_⟩
  have hzero : ∀ b ∈ alphas, alpha_error fitCoef k b mi tol data = 0 := by
    intro b hb
    unfold alpha_error
    have hmap : (List.range 5).map
        (fun i' => (fold_errors fitCoef k b mi tol data i').2) =
        (List.range 5).map (fun _ => (0 : ℚ)) :=
      List.map_congr_left (fun i' hi' =>
        fold_val_err_zero fitCoef k b mi tol data i'
          (hexact b hb i' (List.mem_range.1 hi')))
    rw [hmap]
    simp [meanQ]
  obtain ⟨a0, as, rfl⟩ := List.exists_cons_of_ne_nil halphas
  subst hdata
  simp only [shuffled_table] at hzero
  unfold cross_validation_run
  simp only [hf, mapExcept_ok]
  have hmap2 : (a0 :: as).map (fun b =>
      alpha_error fitCoef k b mi tol ((npShuffle (npSeed seed) st.training_data).1)) =
      (a0 :: as).map (fun _ => (0 : ℚ)) := List.map_congr_left hzero
  rw [hmap2]
  simp only [List.map_cons, pyMax, pyMin]

/-- Witness dataset for C4: five structures, atom count 1, energy exactly
twice the descriptor (the spec's synthetic exact-fit scenario). -/
def c4_data : List (List ℚ) := [[2, 1, 1], [4, 1, 2], [6, 1, 3], [8, 1, 4], [10, 1, 5]]

/-- Witness solver for C4: always returns the exact coefficients. -/
def c4_fit : FitFn := fun _ _ _ _ _ _ => [0, 2]

/-- Witness trainer state for C4. -/
def c4_st : Trainer := ⟨some ModelKind.lasso, none, none,
  c4_data.map (List.drop 1), c4_data.map (fun r => r.getD 0 0), c4_data⟩

/-- On the C4 witness data the exact solver predicts every validation
energy exactly, in every fold and at every swept alpha. -/
lemma c4_exact : ∀ b ∈ ([0, 1] : List ℚ), ∀ i' < 5,
    predictLin (fold_coef c4_fit ModelKind.lasso b 6 1 c4_data i')
        (selRows (tableX c4_data) (validation_id c4_data.length i')) =
      selRows (tableY c4_data) (validation_id c4_data.length i') := by
  intro b hb i' hi'
  interval_cases i' <;>
    norm_num [predictLin, fold_coef, tableX, tableY, selRows, c4_data, c4_fit, dotQ,
      validation_id, pySlice, all_id, pyRangeLen, List.range_succ,
      List.getElem?_cons_zero, List.getElem?_cons_succ, List.filterMap_cons]

/-- Witness for C4 on the exact-fit dataset, fold 2, alpha sweep `[0, 1]`. -/
theorem cross_validation_per_atom_error_witness :
    c4_data = shuffled_table witSeed witShuffle c4_st 2020 0 ∧
    c4_st.f = some ModelKind.lasso ∧ 5 ≤ c4_data.length ∧
    ([0, 1] : List ℚ) ≠ [] ∧
    (∀ b ∈ ([0, 1] : List ℚ), ∀ i' < 5,
      predictLin (fold_coef c4_fit ModelKind.lasso b 6 1 c4_data i')
          (selRows (tableX c4_data) (validation_id c4_data.length i')) =
        selRows (tableY c4_data) (validation_id c4_data.length i')) ∧
    (((fold_errors c4_fit ModelKind.lasso 1 6 1 c4_data 2).2 =
      meanQ ((validation_id c4_data.length 2).map
        (per_atom_err c4_data (fold_coef c4_fit ModelKind.lasso 1 6 1 c4_data 2)))) ∧
    ((fold_errors c4_fit ModelKind.lasso 1 6 1 c4_data 2).1 =
      meanQ ((train_id c4_data.length 2).map
        (per_atom_err c4_data (fold_coef c4_fit ModelKind.lasso 1 6 1 c4_data 2)))) ∧
    (cross_validation_run witSeed witShuffle c4_fit c4_st [0, 1] 6 1 2020 0).2.2 =
      Except.ok (([0, 1] : List ℚ).map (fun _ => (0 : ℚ)))) :=
  ⟨rfl, rfl, by decide, by simp, c4_exact,
    cross_validation_per_atom_error witSeed witShuffle c4_fit c4_st ModelKind.lasso
      [0, 1] 1 6 1 2020 0 2 c4_data rfl rfl (by decide) (by simp) c4_exact⟩

end ReSnap

namespace ReSnap

/-- Reading a mapped zip at an in-bounds position. -/
lemma getD_zip_map {α β γ : Type} (g : α × β → γ) (l1 : List α) (l2 : List β)
    (r : ℕ) (d1 : α) (d2 : β) (d3 : γ) (h1 : r < l1.length) (h2 : r < l2.length) :
    ((l1.zip l2).map g).getD r d3 = g (l1.getD r d1, l2.getD r d2) := by
  induction l1 generalizing l2 r with
  | nil => simp at h1
  | cons a l1 ih =>
    cases l2 with
    | nil => simp at h2
    | cons b l2 =>
      cases r with
      | zero => rfl
      | succ r =>
        simp only [List.length_cons] at h1 h2
        simpa using ih l2 r (by omega) (by omega)

/-- Reading a zipWith at an in-bounds position. -/
lemma getD_zipWith {α β γ : Type} (f : α → β → γ) (l1 : List α) (l2 : List β)
    (n : ℕ) (d1 : α) (d2 : β) (d3 : γ) (h1 : n < l1.length) (h2 : n < l2.length) :
    (List.zipWith f l1 l2).getD n d3 = f (l1.getD n d1) (l2.getD n d2) := by
  induction l1 generalizing l2 n with
  | nil => simp at h1
  | cons a l1 ih =>
    cases l2 with
    | nil => simp at h2
    | cons b l2 =>
      cases n with
      | zero => rfl
      | succ n =>
        simp only [List.length_cons] at h1 h2
        simpa using ih l2 n (by omega) (by omega)

/-- Dropping the atom-count column removes exactly one column. -/
lemma numCols_drop_one (X : List (List ℚ)) (hne : X ≠ []) :
    numCols (X.map (List.drop 1)) = numCols X - 1 := by
  cases X with
  | nil => exact absurd rfl hne
  | cons x0 X' => simp [numCols]

/-- There is one scale factor per feature column. -/
lemma normScales_length (normFn : List ℚ → ℚ) (features : List (List ℚ)) :
    (normScales normFn features).length = numCols features := by
  simp [normScales]

end ReSnap

namespace ReSnap

/-- C9: constructing a trainer with a normalization kind leaves column 0
of `X` untouched, replaces each entry of columns `1..D` by the original
entry divided by the retained scale of its descriptor column, and stores
exactly `D = numCols X - 1` scale factors; with no normalization kind,
`X` is left entirely unchanged and no scale vector is produced. -/
theorem mk_trainer_normalization
    (normFn : List ℚ → ℚ) (modelName : String) (s : String) (X : List (List ℚ))
    (y : List ℚ) (r j : ℕ)
    (hs : s ≠ "") (hrect : ∀ row ∈ X, row.length = numCols X)
    (hr : r < X.length) (hj1 : 1 ≤ j) (hjc : j < numCols X) :
    (((mkTrainer normFn modelName (some s) X y).training_x.getD r []).getD 0 0 =
      (X.getD r []).getD 0 0) ∧
    (((mkTrainer normFn modelName (some s) X y).training_x.getD r []).getD j 0 =
      (X.getD r []).getD j 0 /
        ((mkTrainer normFn modelName (some s) X y).norms.getD []).getD (j - 1) 0) ∧
    ((mkTrainer normFn modelName (some s) X y).norms.isSome = true) ∧
    (((mkTrainer normFn modelName (some s) X y).norms.getD []).length = numCols X - 1) ∧
    ((mkTrainer normFn modelName none X y).training_x = X ∧
      (mkTrainer normFn modelName none X y).norms = none) := by
  have ht : truthyStr (some s) = true := by simp [truthyStr, hs]
  have hX : X ≠ [] := by
    intro h
    subst h
    simp at hr
  have hrow : (X.getD r []).length = numCols X := by
    have : X.getD r [] = X[r] := by
      rw [List.getD_eq_getElem?_getD, List.getElem?_eq_getElem hr]
      rfl
    rw [this]
    exact hrect X[r] (List.getElem_mem hr)
  have hF'len : (normalizedRows normFn (X.map (List.drop 1))).length = X.length := by
    simp [normalizedRows]
  have hfeat : (X.map (List.drop 1)).getD r [] = (X.getD r []).drop 1 :=
    getD_map_lt (List.drop 1) X r [] [] hr
  have hF' : (normalizedRows normFn (X.map (List.drop 1))).getD r [] =
      List.zipWith (fun x s => x / s) ((X.getD r []).drop 1)
        (normScales normFn (X.map (List.drop 1))) := by
    unfold normalizedRows
    rw [getD_map_lt _ _ r [] [] (by simpa using hr), hfeat]
  have hrowx : (mkTrainer normFn modelName (some s) X y).training_x.getD r [] =
      (X.getD r []).take 1 ++ List.zipWith (fun x s => x / s) ((X.getD r []).drop 1)
        (normScales normFn (X.map (List.drop 1))) := by
    simp only [mkTrainer, ht, if_true]
    rw [getD_zip_map _ X _ r [] [] [] hr (by rw [hF'len]; exact hr), hF']
  have hnorms : (mkTrainer normFn modelName (some s) X y).norms =
      some (normScales normFn (X.map (List.drop 1))) := by
    simp only [mkTrainer, ht, if_true]
  have hnslen : (normScales normFn (X.map (List.drop 1))).length = numCols X - 1 := by
    rw [normScales_length, numCols_drop_one X hX]
  obtain ⟨x, rest, hxr⟩ : ∃ x rest, X.getD r [] = x :: rest := by
    cases hcase : X.getD r [] with
    | nil => rw [hcase] at hrow; simp at hrow; omega
    | cons x rest => exact ⟨x, rest, rfl⟩
  refine ⟨?_, ?_, ?_, ?_, ?_, ?_⟩
  · rw [hrowx, hxr]
    rfl
  · rw [hrowx, hnorms, hxr]
    obtain ⟨j', rfl⟩ : ∃ j', j = j' + 1 := ⟨j - 1, by omega⟩
    simp only [Option.getD_some, List.take_cons, List.take_nil, List.drop_succ_cons,
      List.drop_zero, List.cons_append, List.nil_append, List.getD_cons_succ,
      Nat.add_sub_cancel]
    have hrest : j' < rest.length := by
      have : (x :: rest).length = numCols X := hxr ▸ hrow
      simp only [List.length_cons] at this
      omega
    exact getD_zipWith _ rest _ j' 0 0 0 hrest (by rw [hnslen]; omega)
  · rw [hnorms]
    rfl
  · rw [hnorms]
    simpa using hnslen
  · simp [mkTrainer, truthyStr]
  · simp [mkTrainer, truthyStr]

end ReSnap

namespace ReSnap

/-- Witness matrix for C9: two rows, atom-count column plus two
descriptor columns. -/
def witX : List (List ℚ) := [[1, 2, 3], [1, 4, 9]]

/-- Witness for C9 with the l1 norm on a 2-by-3 matrix, row 1, column 2. -/
theorem mk_trainer_normalization_witness :
    ("l1" : String) ≠ "" ∧ (∀ row ∈ witX, row.length = numCols witX) ∧
    1 < witX.length ∧ 1 ≤ 2 ∧ 2 < numCols witX ∧
    ((((mkTrainer l1ColNorm "LASSO" (some "l1") witX [10, 20]).training_x.getD 1 []).getD 0 0 =
      (witX.getD 1 []).getD 0 0) ∧
    (((mkTrainer l1ColNorm "LASSO" (some "l1") witX [10, 20]).training_x.getD 1 []).getD 2 0 =
      (witX.getD 1 []).getD 2 0 /
        ((mkTrainer l1ColNorm "LASSO" (some "l1") witX [10, 20]).norms.getD []).getD (2 - 1) 0) ∧
    ((mkTrainer l1ColNorm "LASSO" (some "l1") witX [10, 20]).norms.isSome = true) ∧
    (((mkTrainer l1ColNorm "LASSO" (some "l1") witX [10, 20]).norms.getD []).length =
      numCols witX - 1) ∧
    ((mkTrainer l1ColNorm "LASSO" none witX [10, 20]).training_x = witX ∧
      (mkTrainer l1ColNorm "LASSO" none witX [10, 20]).norms = none)) :=
  ⟨by decide, by decide, by decide, by decide, by decide,
    mk_trainer_normalization l1ColNorm "LASSO" "l1" witX [10, 20] 1 2
      (by decide) (by decide) (by decide) (by decide) (by decide)⟩

end ReSnap

namespace ReSnap

/-- C8: a trainer constructed with a model kind outside LASSO/RIDGE is
built without failing — its `f` attribute is just `None` — and the
failure surfaces only when `make_potential` or `cross_validation` tries
to call the unresolvable model constructor. -/
theorem unknown_model_kind_late_failure
    (normFn : List ℚ → ℚ) (modelName : String) (norm : Option String)
    (X : List (List ℚ)) (y : List ℚ) (npSeed : ℕ → RngState)
    (npShuffle : RngState → List (List ℚ) → List (List ℚ) × RngState)
    (fitCoef : FitFn) (alphas : List ℚ) (mi tol alpha : ℚ) (seed : ℕ)
    (rng0 : RngState) (output_dir : String) (fs : FS)
    (hname : MODELS_get modelName = none) (halphas : alphas ≠ []) :
    (mkTrainer normFn modelName norm X y).f = none ∧
    make_potential fitCoef (mkTrainer normFn modelName norm X y) output_dir
      alpha mi tol fs = Except.error typeErrorMsg ∧
    (cross_validation_run npSeed npShuffle fitCoef (mkTrainer normFn modelName norm X y)
      alphas mi tol seed rng0).2.2 = Except.error typeErrorMsg := by
  have hf : (mkTrainer normFn modelName norm X y).f = none := by
    unfold mkTrainer
    split <;> simpa using hname
  refine ⟨hf, ?_, ?_⟩
  · unfold make_potential
    rw [hf]
  · obtain ⟨a0, as, rfl⟩ := List.exists_cons_of_ne_nil halphas
    unfold cross_validation_run
    simp only [hf, mapExcept]
    rfl

/-- Witness for C8 with the unknown model kind string SVM. -/
theorem unknown_model_kind_late_failure_witness :
    MODELS_get "SVM" = none ∧ ([1] : List ℚ) ≠ [] ∧
    ((mkTrainer l1ColNorm "SVM" none witX [10, 20]).f = none ∧
    make_potential witFit (mkTrainer l1ColNorm "SVM" none witX [10, 20]) "out"
      1 6 1 (fun _ => none) = Except.error typeErrorMsg ∧
    (cross_validation_run witSeed witShuffle witFit
      (mkTrainer l1ColNorm "SVM" none witX [10, 20]) [1] 6 1 2020 0).2.2 =
      Except.error typeErrorMsg) :=
  ⟨by decide, by simp,
    unknown_model_kind_late_failure l1ColNorm "SVM" none witX [10, 20] witSeed
      witShuffle witFit [1] 6 1 1 2020 0 "out" (fun _ => none) (by decide) (by simp)⟩

end ReSnap

namespace ReSnap

/-- Counterexample trainer for C1: `X` has 2 columns, i.e. the atom-count
column plus D = 1 descriptor column. -/
def c1_st : Trainer := ⟨some ModelKind.lasso, none, none, [[2, 3], [4, 5]], [1, 2],
  [[1, 2, 3], [2, 4, 5]]⟩

/-- Counterexample solver for C1: returns one coefficient per column of
the design matrix (the sklearn shape contract). -/
def c1_fit : FitFn := fun _ _ _ _ X _ => X.headD []

/-- Counterexample to C1 as stated: on a dataset with D = 1 descriptor
column the written potential file has 2 lines (one per column of `X`,
atom-count column included), not D = 1 lines. -/
theorem make_potential_line_count_cex :
    numCols c1_st.training_x - 1 = 1 ∧
    (make_potential c1_fit c1_st "out" 1 6 1 (fun _ => none)).toOption.map
      (fun fs => ((fs "out/re_potential").getD []).length) = some 2 ∧
    (2 : ℕ) ≠ 1 := by
  refine ⟨by decide, ?_, by decide⟩
  decide

/-- Counterexample trainer for C3: normalization configured, D = 2 scale
factors, `X` with 3 columns, so the fitted coefficient vector has 3
entries. -/
def c3_st : Trainer := ⟨some ModelKind.ridge, some "l2", some [1, 2], [[1, 2, 3]], [5],
  [[5, 1, 2, 3]]⟩

/-- Counterexample solver for C3: three coefficients, one per column. -/
def c3_fit : FitFn := fun _ _ _ _ _ _ => [3, 4, 5]

/-- Counterexample to C3 as stated: with normalization configured the
division of the 1+D coefficients by the D stored scales is a numpy
broadcast error for D = 2, so `make_potential` does NOT complete
normally. -/
theorem make_potential_norm_mismatch_cex :
    truthyStr c3_st.norm = true ∧
    (make_potential c3_fit c3_st "out" 1 6 1 (fun _ => none)).toOption.isNone = true := by
  constructor <;> decide

end ReSnap

namespace ReSnap

/-- C1 amended: `make_potential` fits one regularized linear model with
no intercept on the entire feature matrix `X` (atom-count column
included) against the energies; without normalization it completes and
the output file at `<output_dir>/re_potential` holds exactly one
coefficient per column of `X` — `1 + D` lines, not `D` — and the write
replaces whatever the path held before. -/
theorem make_potential_full_matrix_fit
    (fitCoef : FitFn) (st : Trainer) (k : ModelKind) (output_dir : String)
    (alpha mi tol : ℚ) (fs : FS) (D : ℕ)
    (hf : st.f = some k) (hnorm : truthyStr st.norm = false)
    (hlen : (fitCoef k alpha mi tol st.training_x st.training_y).length =
      numCols st.training_x)
    (hD : numCols st.training_x = 1 + D) :
    make_potential fitCoef st output_dir alpha mi tol fs =
      Except.ok (writeLines fs (output_dir ++ "/re_potential")
        (fitCoef k alpha mi tol st.training_x st.training_y)) ∧
    writeLines fs (output_dir ++ "/re_potential")
        (fitCoef k alpha mi tol st.training_x st.training_y)
        (output_dir ++ "/re_potential") =
      some (fitCoef k alpha mi tol st.training_x st.training_y) ∧
    (fitCoef k alpha mi tol st.training_x st.training_y).length = 1 + D := by
  refine ⟨?_, ?_, hD ▸ hlen⟩
  · unfold make_potential
    rw [hf, hnorm]
    rfl
  · simp [writeLines]

/-- Witness for the amended C1 on the two-column dataset. -/
theorem make_potential_full_matrix_fit_witness :
    c1_st.f = some ModelKind.lasso ∧ truthyStr c1_st.norm = false ∧
    (c1_fit ModelKind.lasso 1 6 1 c1_st.training_x c1_st.training_y).length =
      numCols c1_st.training_x ∧
    numCols c1_st.training_x = 1 + 1 ∧
    (make_potential c1_fit c1_st "out" 1 6 1 (fun _ => none) =
      Except.ok (writeLines (fun _ => none) ("out" ++ "/re_potential")
        (c1_fit ModelKind.lasso 1 6 1 c1_st.training_x c1_st.training_y)) ∧
    writeLines (fun _ => none) ("out" ++ "/re_potential")
        (c1_fit ModelKind.lasso 1 6 1 c1_st.training_x c1_st.training_y)
        ("out" ++ "/re_potential") =
      some (c1_fit ModelKind.lasso 1 6 1 c1_st.training_x c1_st.training_y) ∧
    (c1_fit ModelKind.lasso 1 6 1 c1_st.training_x c1_st.training_y).length = 1 + 1) :=
  ⟨rfl, rfl, by decide, by decide,
    make_potential_full_matrix_fit c1_fit c1_st ModelKind.lasso "out" 1 6 1
      (fun _ => none) 1 rfl rfl (by decide) (by decide)⟩

/-- C3 amended: when a normalization kind is configured `make_potential`
divides the fitted coefficient vector by the stored scale vector with
numpy broadcast semantics before writing; the division is elementwise
and the call completes when the lengths agree, and a length mismatch
(not salvaged by broadcasting) is propagated as the numeric routine's
error rather than independently checked. -/
theorem make_potential_norm_broadcast_division
    (fitCoef : FitFn) (st : Trainer) (k : ModelKind) (output_dir : String)
    (alpha mi tol : ℚ) (fs : FS) (ns : List ℚ)
    (hf : st.f = some k) (hnorm : truthyStr st.norm = true)
    (hns : st.norms = some ns) :
    make_potential fitCoef st output_dir alpha mi tol fs =
      (match np_true_divide (fitCoef k alpha mi tol st.training_x st.training_y) ns with
        | Except.error e => Except.error e
        | Except.ok pot =>
          Except.ok (writeLines fs (output_dir ++ "/re_potential") pot)) ∧
    ((fitCoef k alpha mi tol st.training_x st.training_y).length = ns.length →
      np_true_divide (fitCoef k alpha mi tol st.training_x st.training_y) ns =
        Except.ok (List.zipWith (fun a b => a / b)
          (fitCoef k alpha mi tol st.training_x st.training_y) ns)) ∧
    ((fitCoef k alpha mi tol st.training_x st.training_y).length ≠ ns.length →
      ns.length ≠ 1 →
      (fitCoef k alpha mi tol st.training_x st.training_y).length ≠ 1 →
      make_potential fitCoef st output_dir alpha mi tol fs =
        Except.error "ValueError: operands could not be broadcast together") := by
  have hbody : make_potential fitCoef st output_dir alpha mi tol fs =
      (match np_true_divide (fitCoef k alpha mi tol st.training_x st.training_y) ns with
        | Except.error e => Except.error e
        | Except.ok pot =>
          Except.ok (writeLines fs (output_dir ++ "/re_potential") pot)) := by
    unfold make_potential
    rw [hf, hnorm, hns]
    rfl
  refine ⟨hbody, ?_, ?_⟩
  · intro hlen
    unfold np_true_divide
    rw [if_pos hlen]
  · intro h1 h2 h3
    rw [hbody]
    unfold np_true_divide
    rw [if_neg h1, if_neg h2, if_neg h3]

/-- Witness for the amended C3 on the mismatched 3-versus-2 instance. -/
theorem make_potential_norm_broadcast_division_witness :
    c3_st.f = some ModelKind.ridge ∧ truthyStr c3_st.norm = true ∧
    c3_st.norms = some [1, 2] ∧
    (make_potential c3_fit c3_st "out" 1 6 1 (fun _ => none) =
      (match np_true_divide (c3_fit ModelKind.ridge 1 6 1 c3_st.training_x
          c3_st.training_y) [1, 2] with
        | Except.error e => Except.error e
        | Except.ok pot =>
          Except.ok (writeLines (fun _ => none) ("out" ++ "/re_potential") pot)) ∧
    ((c3_fit ModelKind.ridge 1 6 1 c3_st.training_x c3_st.training_y).length =
        ([1, 2] : List ℚ).length →
      np_true_divide (c3_fit ModelKind.ridge 1 6 1 c3_st.training_x c3_st.training_y)
          [1, 2] =
        Except.ok (List.zipWith (fun a b => a / b)
          (c3_fit ModelKind.ridge 1 6 1 c3_st.training_x c3_st.training_y) [1, 2])) ∧
    ((c3_fit ModelKind.ridge 1 6 1 c3_st.training_x c3_st.training_y).length ≠
        ([1, 2] : List ℚ).length →
      ([1, 2] : List ℚ).length ≠ 1 →
      (c3_fit ModelKind.ridge 1 6 1 c3_st.training_x c3_st.training_y).length ≠ 1 →
      make_potential c3_fit c3_st "out" 1 6 1 (fun _ => none) =
        Except.error "ValueError: operands could not be broadcast together")) :=
  ⟨rfl, rfl, rfl,
    make_potential_norm_broadcast_division c3_fit c3_st ModelKind.ridge "out" 1 6 1
      (fun _ => none) [1, 2] rfl rfl rfl⟩

end ReSnap
